import Mathlib

/-!
Shallow embedding of the two notebooks of this repository: the
`AverageMeter` metric accumulator, the epoch runners (`train_one_epoch`,
`validate`), the training-driver loop with best-checkpoint logic, the
`BasicBlock` residual block, the `ResNet` assembler (`_make_layer`,
`resnet18`) and the two `SimpleCNN` definitions.

Real-valued tensors are modelled over `ℚ`.  A (single-image) activation
tensor is a total function from (channel, row, column) to `ℚ`; every
operation also receives the relevant extents explicitly, mirroring the
shapes the tensor library tracks.  All batch operations of the source act
sample-wise over the batch dimension, so the per-image semantics is joined
with an explicit batch size where a claim mentions one.

Inference-mode `nn.BatchNorm2d` is a per-channel affine map; the
`scale`/`shift` fields below fold the learned weight and bias, the running
statistics and epsilon (the square root involved is not representable in
`ℚ`, and no property below depends on its numeric value).
-/

namespace DLCourse

/-- Metric accumulator `AverageMeter` of the notebook: a running weighted
sum and a running count of weights. -/
structure AverageMeter where
  sum : ℚ
  count : ℕ

/-- The `reset` method (also executed by `__init__`): `sum = 0; count = 0`. -/
def AverageMeter.reset : AverageMeter := ⟨0, 0⟩

/-- The `update(value, n)` method: `sum += value * n; count += n`.  At every
call site `n` is a batch size, hence a natural number (the default is 1). -/
def AverageMeter.update (m : AverageMeter) (value : ℚ) (n : ℕ) : AverageMeter :=
  ⟨m.sum + value * (n : ℚ), m.count + n⟩

/-- The `avg` property: `sum / count if count > 0 else 0`. -/
def AverageMeter.avg (m : AverageMeter) : ℚ :=
  if 0 < m.count then m.sum / (m.count : ℚ) else 0

/-- A finite sequence of `update` calls applied in order. -/
def AverageMeter.runUpdates (m : AverageMeter) (l : List (ℚ × ℕ)) : AverageMeter :=
  l.foldl (fun acc p => acc.update p.1 p.2) m

/-- Index of the first maximum of `f` on `[0, c)`, as `torch.argmax` over
the class dimension of a score vector; `0` in the degenerate case `c = 0`. -/
def argmaxScores (c : ℕ) (f : ℕ → ℚ) : ℕ :=
  (List.range c).foldl (fun best i => if f best < f i then i else best) 0

/-- Number of samples whose arg-max predicted class equals the label
(`preds` and `labels` are walked in parallel, as the equal-length batch
tensors are). -/
def countCorrect (c : ℕ) (preds : List (ℕ → ℚ)) (labels : List ℕ) : ℕ :=
  ((preds.zip labels).filter fun pl => argmaxScores c pl.1 == pl.2).length

/-- State of `torchmetrics.Accuracy(task="multiclass", ...)` with the
wrapper's default micro averaging: number of correct predictions and number
of samples seen. -/
structure MulticlassAcc where
  correct : ℕ
  total : ℕ

/-- The metric's `reset()`. -/
def MulticlassAcc.reset : MulticlassAcc := ⟨0, 0⟩

/-- The metric's `update(preds, target)` for one batch of `preds.length`
samples. -/
def MulticlassAcc.updateBatch (a : MulticlassAcc) (c : ℕ) (preds : List (ℕ → ℚ))
    (labels : List ℕ) : MulticlassAcc :=
  ⟨a.correct + countCorrect c preds labels, a.total + preds.length⟩

/-- The metric's `compute()`: fraction of samples predicted correctly
(`0` when nothing was accumulated). -/
def MulticlassAcc.compute (a : MulticlassAcc) : ℚ :=
  if 0 < a.total then (a.correct : ℚ) / (a.total : ℚ) else 0

/-- Observable events of one epoch-runner pass, in program order:
mode switches, the per-batch tensor-library calls and the metric updates. -/
inductive Ev where
  | trainMode
  | evalMode
  | forwardE
  | lossE
  | zeroGrad
  | backward
  | step
  | meterUpd (value : ℚ) (n : ℕ)
  | accUpd
deriving DecidableEq

/-- What one training batch contributes, as observed in a run of
`train_one_epoch`: the model outputs (one score vector per sample), the
integer labels, and the scalar loss value `loss.item()`. -/
structure BatchRes where
  preds : List (ℕ → ℚ)
  labels : List ℕ
  lossVal : ℚ

/-- Events emitted for one batch of `train_one_epoch`, in source order:
`outputs = model(X)`, `loss = criterion(...)`, `optimizer.zero_grad()`,
`loss.backward()`, `optimizer.step()`, `loss_meter.update(loss.item(), N)`,
`accuracy_metric.update(preds, y)`. -/
def trainBatchEvs (b : BatchRes) : List Ev :=
  [Ev.forwardE, Ev.lossE, Ev.zeroGrad, Ev.backward, Ev.step,
   Ev.meterUpd b.lossVal b.preds.length, Ev.accUpd]

/-- The `for X_batch, y_batch in dataloader` loop of `train_one_epoch`,
threading the loss meter, the accuracy metric and the event trace. -/
def trainLoop (c : ℕ) :
    List BatchRes → AverageMeter → MulticlassAcc → List Ev →
      AverageMeter × MulticlassAcc × List Ev
  | [], meter, acc, tr => (meter, acc, tr)
  | b :: rest, meter, acc, tr =>
      trainLoop c rest (meter.update b.lossVal b.preds.length)
        (acc.updateBatch c b.preds b.labels) (tr ++ trainBatchEvs b)

/-- Result of one epoch-runner pass: the event trace and the returned
`(avg_loss, avg_accuracy)` pair. -/
structure EpochOut where
  trace : List Ev
  avgLoss : ℚ
  avgAcc : ℚ

/-- The notebook's `train_one_epoch`: `model.train()`, fresh
`AverageMeter`, `accuracy_metric.reset()`, the batch loop, then
`return loss_meter.avg, accuracy_metric.compute().item()`. -/
def trainOneEpoch (c : ℕ) (bs : List BatchRes) : EpochOut :=
  let r := trainLoop c bs AverageMeter.reset MulticlassAcc.reset [Ev.trainMode]
  ⟨r.2.2, r.1.avg, r.2.1.compute⟩

/-- Events emitted for one batch of `validate`: forward, loss, and the two
metric updates; no gradient or optimizer call occurs inside
`torch.no_grad()`. -/
def valBatchEvs (lossVal : ℚ) (n : ℕ) : List Ev :=
  [Ev.forwardE, Ev.lossE, Ev.meterUpd lossVal n, Ev.accUpd]

/-- The batch loop of `validate`.  The model `m` is only ever read (through
`fw`); no assignment to it exists in the source. -/
def valLoop {μ ξ : Type} (fw : μ → List ξ → List (ℕ → ℚ))
    (lossF : List (ℕ → ℚ) → List ℕ → ℚ) (c : ℕ) (m : μ) :
    List (List ξ × List ℕ) → AverageMeter → MulticlassAcc → List Ev →
      AverageMeter × MulticlassAcc × List Ev
  | [], meter, acc, tr => (meter, acc, tr)
  | b :: rest, meter, acc, tr =>
      valLoop fw lossF c m rest (meter.update (lossF (fw m b.1) b.2) b.1.length)
        (acc.updateBatch c (fw m b.1) b.2) (tr ++ valBatchEvs (lossF (fw m b.1) b.2) b.1.length)

/-- Result of a `validate` pass; the `model` field is the model as it
stands after the pass (the source never reassigns or updates it). -/
structure ValOut (μ : Type) where
  model : μ
  avgLoss : ℚ
  avgAcc : ℚ
  trace : List Ev

/-- The notebook's `validate`: `model.eval()`, fresh meter, metric reset,
read-only batch loop under `torch.no_grad()`, returns
`(loss_meter.avg, accuracy_metric.compute().item())`.  `fw` is the model's
forward function and `lossF` the criterion, both opaque here. -/
def validate {μ ξ : Type} (fw : μ → List ξ → List (ℕ → ℚ))
    (lossF : List (ℕ → ℚ) → List ℕ → ℚ) (c : ℕ) (m : μ)
    (bs : List (List ξ × List ℕ)) : ValOut μ :=
  let r := valLoop fw lossF c m bs AverageMeter.reset MulticlassAcc.reset [Ev.evalMode]
  ⟨m, r.1.avg, r.2.1.compute, r.2.2⟩

/-- Per-epoch results as the training script observes them: the
`(train_loss, train_acc)` pair returned by `train_one_epoch` followed by
the `(val_loss, val_acc)` pair returned by `validate`. -/
abbrev EpochRes : Type := (ℚ × ℚ) × (ℚ × ℚ)

/-- State of the training script: the running `best_val_acc`, the
TensorBoard `add_scalar` calls `(tag, value, epoch)`, the printed per-epoch
summary lines as their data `(epoch+1, num_epochs, train_loss, train_acc,
val_loss, val_acc)`, the epochs at which `torch.save` overwrote
`best_model.pth`, and the printed best-model messages `(epoch+1, acc)`. -/
structure DriverState where
  bestValAcc : ℚ
  logs : List (String × ℚ × ℕ)
  summaries : List (ℕ × ℕ × ℚ × ℚ × ℚ × ℚ)
  checkpoints : List ℕ
  saveMsgs : List (ℕ × ℚ)

/-- Driver state before the loop: `best_val_acc = 0.0`, nothing emitted. -/
def DriverState.init : DriverState := ⟨0, [], [], [], []⟩

/-- One iteration of the training script's epoch loop, given the epoch's
results `env epoch`: log the four scalars, print the summary line, and save
the model iff `val_acc > best_val_acc`. -/
def driverStep (numEpochs : ℕ) (env : ℕ → EpochRes) (s : DriverState) (epoch : ℕ) :
    DriverState :=
  let tl := (env epoch).1.1
  let ta := (env epoch).1.2
  let vl := (env epoch).2.1
  let va := (env epoch).2.2
  let s1 : DriverState :=
    { s with
      logs := s.logs ++
        [("Loss/Train", tl, epoch), ("Accuracy/Train", ta, epoch),
         ("Loss/Validation", vl, epoch), ("Accuracy/Validation", va, epoch)],
      summaries := s.summaries ++ [(epoch + 1, numEpochs, tl, ta, vl, va)] }
  if va > s1.bestValAcc then
    { s1 with bestValAcc := va, checkpoints := s1.checkpoints ++ [epoch],
              saveMsgs := s1.saveMsgs ++ [(epoch + 1, va)] }
  else s1

/-- The first `count` iterations of the loop `for epoch in range(numEpochs)`. -/
def runDriverAux (numEpochs : ℕ) (env : ℕ → EpochRes) (count : ℕ) : DriverState :=
  (List.range count).foldl (driverStep numEpochs env) DriverState.init

/-- The whole training script loop: `num_epochs` iterations, unconditionally. -/
def runDriver (numEpochs : ℕ) (env : ℕ → EpochRes) : DriverState :=
  runDriverAux numEpochs env numEpochs

/-- Running maximum the driver's `best_val_acc` follows: `0.0` initially,
then the maximum of the validation accuracies seen so far. -/
def bestUpTo (env : ℕ → EpochRes) : ℕ → ℚ
  | 0 => 0
  | n + 1 => max (bestUpTo env n) (env n).2.2

/-! Value semantics of the network layers. -/

/-- A single-image activation tensor: channel → row → column → value. -/
def Img : Type := ℕ → ℕ → ℕ → ℚ

/-- Read `x` at padded coordinates: a tensor of extents `H × W` padded with
`pad` zeros on each border. -/
def padGet (H W pad : ℕ) (x : Img) (ch u v : ℕ) : ℚ :=
  if pad ≤ u ∧ u < H + pad ∧ pad ≤ v ∧ v < W + pad then x ch (u - pad) (v - pad) else 0

/-- Output extent of a convolution / pooling with kernel `k`, stride `s`
and padding `pad` on an input extent `h` (floor division, as the library). -/
def convOut (h k s pad : ℕ) : ℕ := (h + 2 * pad - k) / s + 1

/-- `nn.Conv2d(inC, outC, kernel_size=k, stride=s, padding=pad, bias=False)`
applied to an `inC × H × W` input: a cross-correlation with weight `w`
(indexed output channel, input channel, kernel row, kernel column). -/
def conv2dV (w : ℕ → ℕ → ℕ → ℕ → ℚ) (inC k s pad H W : ℕ) (x : Img) : Img :=
  fun c i j =>
    ∑ ci ∈ Finset.range inC, ∑ a ∈ Finset.range k, ∑ b ∈ Finset.range k,
      w c ci a b * padGet H W pad x ci (i * s + a) (j * s + b)

/-- `nn.Conv2d` with its default additive bias (as in both `SimpleCNN`s). -/
def conv2dBiasV (w : ℕ → ℕ → ℕ → ℕ → ℚ) (bias : ℕ → ℚ) (inC k s pad H W : ℕ)
    (x : Img) : Img :=
  fun c i j => conv2dV w inC k s pad H W x c i j + bias c

/-- Inference-form `nn.BatchNorm2d`: a per-channel affine map.  `scale` and
`shift` fold the learned affine parameters, the running statistics and
epsilon. -/
structure BNParams where
  scale : ℕ → ℚ
  shift : ℕ → ℚ

/-- Apply a batch-normalization layer. -/
def bnV (p : BNParams) (x : Img) : Img :=
  fun c i j => p.scale c * x c i j + p.shift c

/-- `torch.relu` / `nn.ReLU` on an image tensor. -/
def reluI (x : Img) : Img := fun c i j => max 0 (x c i j)

/-- `torch.relu` on a flat vector. -/
def reluV (v : ℕ → ℚ) : ℕ → ℚ := fun n => max 0 (v n)

/-- The in-bounds values of one `k × k` pooling window at output position
`(i, j)` (max-pooling padding contributes no value). -/
def poolVals (k s pad H W : ℕ) (x : Img) (c i j : ℕ) : List ℚ :=
  (List.range k).flatMap fun a =>
    (List.range k).filterMap fun b =>
      if pad ≤ i * s + a ∧ i * s + a < H + pad ∧ pad ≤ j * s + b ∧ j * s + b < W + pad then
        some (x c (i * s + a - pad) (j * s + b - pad))
      else none

/-- `nn.MaxPool2d(k, s, padding=pad)` on an `H × W` input (the value `0`
for a window with no in-bounds element never arises in a legal
configuration). -/
def maxPoolV (k s pad H W : ℕ) (x : Img) : Img :=
  fun c i j =>
    match poolVals k s pad H W x c i j with
    | [] => 0
    | h :: t => t.foldl max h

/-- `nn.AdaptiveAvgPool2d((1, 1))` on an `H × W` input: per-channel mean. -/
def adaptiveAvgPool11V (H W : ℕ) (x : Img) : Img :=
  fun c _ _ => (∑ i ∈ Finset.range H, ∑ j ∈ Finset.range W, x c i j) / ((H * W : ℕ) : ℚ)

/-- Flattening an `C × H × W` tensor row-major into a vector, as
`x.view(-1, C*H*W)` / `torch.flatten(x, 1)` do per sample. -/
def flattenV (H W : ℕ) (x : Img) : ℕ → ℚ :=
  fun n => x (n / (H * W)) (n % (H * W) / W) (n % W)

/-- Parameters of an `nn.Linear` layer. -/
structure LinParams where
  weight : ℕ → ℕ → ℚ
  bias : ℕ → ℚ

/-- `nn.Linear(inF, outF)` applied to a vector. -/
def linearV (p : LinParams) (inF : ℕ) (v : ℕ → ℚ) : ℕ → ℚ :=
  fun n => (∑ j ∈ Finset.range inF, p.weight n j * v j) + p.bias n

/-! The `BasicBlock` residual block (second notebook). -/

/-- The class attribute `BasicBlock.expansion = 1`. -/
def BasicBlock.expansion : ℕ := 1

/-- Learned parameters of one `BasicBlock`: the two 3×3 convolutions, their
batch norms, and the optional downsample path (`None` exactly when the
constructor received `downsample=None`). -/
structure BasicBlockParams where
  conv1W : ℕ → ℕ → ℕ → ℕ → ℚ
  bn1 : BNParams
  conv2W : ℕ → ℕ → ℕ → ℕ → ℚ
  bn2 : BNParams
  downsample : Option ((ℕ → ℕ → ℕ → ℕ → ℚ) × BNParams)

/-- The block's main path `F`: `bn2(conv2(relu(bn1(conv1 x))))`, where
`conv1` has kernel 3, the block's stride and padding 1 and `conv2` has
kernel 3, stride 1 and padding 1. -/
def BasicBlock.mainPath (p : BasicBlockParams) (inC outC stride H W : ℕ) (x : Img) : Img :=
  bnV p.bn2
    (conv2dV p.conv2W outC 3 1 1 (convOut H 3 stride 1) (convOut W 3 stride 1)
      (reluI (bnV p.bn1 (conv2dV p.conv1W inC 3 stride 1 H W x))))

/-- The block's shortcut: `downsample(x)` (a 1×1 stride-matching
convolution followed by batch norm) when configured, the input unchanged
otherwise. -/
def BasicBlock.identityPath (p : BasicBlockParams) (inC stride H W : ℕ) (x : Img) : Img :=
  match p.downsample with
  | some dp => bnV dp.2 (conv2dV dp.1 inC 1 stride 0 H W x)
  | none => x

/-- `BasicBlock.forward`, translated statement by statement:
`identity = x`; `out = relu(bn1(conv1 x))`; `out = bn2(conv2 out)`;
`if downsample is not None: identity = downsample(x)`; `out += identity`;
`out = relu(out)`. -/
def BasicBlock.forward (p : BasicBlockParams) (inC outC stride H W : ℕ) (x : Img) : Img :=
  let identity := x
  let out := conv2dV p.conv1W inC 3 stride 1 H W x
  let out := bnV p.bn1 out
  let out := reluI out
  let out := conv2dV p.conv2W outC 3 1 1 (convOut H 3 stride 1) (convOut W 3 stride 1) out
  let out := bnV p.bn2 out
  let identity :=
    match p.downsample with
    | some dp => bnV dp.2 (conv2dV dp.1 inC 1 stride 0 H W x)
    | none => identity
  reluI (fun c i j => out c i j + identity c i j)

/-! Shape calculus: what shape each layer produces, `none` on a shape the
library would reject. -/

/-- Shape of a single-image activation tensor: (channels, height, width). -/
abbrev Shape : Type := ℕ × ℕ × ℕ

/-- Shape behavior of `nn.Conv2d(inC, outC, k, stride=s, padding=pad)`:
requires matching input channels, a positive stride and a kernel no larger
than the padded input. -/
def convShape (inC outC k s pad : ℕ) (sh : Shape) : Option Shape :=
  if sh.1 = inC ∧ 1 ≤ s ∧ k ≤ sh.2.1 + 2 * pad ∧ k ≤ sh.2.2 + 2 * pad then
    some (outC, convOut sh.2.1 k s pad, convOut sh.2.2 k s pad)
  else none

/-- Shape behavior of `nn.BatchNorm2d(c)`: requires `c` channels,
preserves the shape. -/
def bnShape (c : ℕ) (sh : Shape) : Option Shape :=
  if sh.1 = c then some sh else none

/-- Shape behavior of `nn.MaxPool2d(k, s, padding=pad)` (floor mode). -/
def maxPoolShape (k s pad : ℕ) (sh : Shape) : Option Shape :=
  if 1 ≤ s ∧ k ≤ sh.2.1 + 2 * pad ∧ k ≤ sh.2.2 + 2 * pad then
    some (sh.1, convOut sh.2.1 k s pad, convOut sh.2.2 k s pad)
  else none

/-- Shape behavior of `nn.AdaptiveAvgPool2d((1, 1))`. -/
def adaptiveAvgPoolShape (sh : Shape) : Shape := (sh.1, 1, 1)

/-- Length of the flattened per-sample vector. -/
def flattenLen (sh : Shape) : ℕ := sh.1 * sh.2.1 * sh.2.2

/-- Shape behavior of `nn.Linear(inF, outF)` on a per-sample vector. -/
def linearShape (inF outF n : ℕ) : Option ℕ :=
  if n = inF then some outF else none

/-- Construction-time configuration of one `BasicBlock` as `_make_layer`
instantiates it: input channels, output channels, stride, and whether a
downsample module was passed. -/
structure BlockCfg where
  inC : ℕ
  outC : ℕ
  stride : ℕ
  hasDownsample : Bool
deriving DecidableEq

/-- Shape behavior of the downsample module `_make_layer` builds:
`nn.Conv2d(in_channels, out_channels * expansion, kernel_size=1,
stride=stride, bias=False)` followed by
`nn.BatchNorm2d(out_channels * expansion)`. -/
def BlockCfg.downsampleShape (cfg : BlockCfg) (sh : Shape) : Option Shape :=
  (convShape cfg.inC (cfg.outC * BasicBlock.expansion) 1 cfg.stride 0 sh).bind
    (bnShape (cfg.outC * BasicBlock.expansion))

/-- Shape behavior of `BasicBlock.forward`: the main path (conv 3×3 with
the block's stride, bn, relu, conv 3×3 stride 1, bn), the shortcut (the
downsample module when configured, the input shape otherwise), and the
element-wise `out += identity`, which the library accepts only on equal
shapes. -/
def blockShape (cfg : BlockCfg) (sh : Shape) : Option Shape :=
  ((((convShape cfg.inC cfg.outC 3 cfg.stride 1 sh).bind (bnShape cfg.outC)).bind
      (convShape cfg.outC cfg.outC 3 1 1)).bind (bnShape cfg.outC)).bind fun out =>
    (if cfg.hasDownsample then cfg.downsampleShape sh else some sh).bind fun idv =>
      if idv = out then some out else none

/-- `ResNet._make_layer(block, out_channels, blocks, stride)`: a downsample
module iff `stride != 1 or in_channels != out_channels * expansion`; the
first block gets the given stride and the downsample; the remaining
`blocks - 1` blocks get stride 1 and no downsample; `self.in_channels`
becomes `out_channels * expansion` after the first block.  Returns the
stage and the updated channel tracker. -/
def ResNet.makeLayer (inCh outC blocks stride : ℕ) : List BlockCfg × ℕ :=
  let hasDs : Bool := stride != 1 || inCh != outC * BasicBlock.expansion
  (⟨inCh, outC, stride, hasDs⟩ ::
      List.replicate (blocks - 1) ⟨outC * BasicBlock.expansion, outC, 1, false⟩,
    outC * BasicBlock.expansion)

/-- The assembled network configuration: the four stages and the class
count. -/
structure ResNetCfg where
  stage1 : List BlockCfg
  stage2 : List BlockCfg
  stage3 : List BlockCfg
  stage4 : List BlockCfg
  numClasses : ℕ

/-- `ResNet.__init__`: `in_channels = 64`, then the four `_make_layer`
calls with widths 64, 128, 256, 512 and strides 1, 2, 2, 2, threading the
channel tracker. -/
def ResNet.build (n1 n2 n3 n4 numClasses : ℕ) : ResNetCfg :=
  let inC0 := 64
  let r1 := ResNet.makeLayer inC0 64 n1 1
  let r2 := ResNet.makeLayer r1.2 128 n2 2
  let r3 := ResNet.makeLayer r2.2 256 n3 2
  let r4 := ResNet.makeLayer r3.2 512 n4 2
  ⟨r1.1, r2.1, r3.1, r4.1, numClasses⟩

/-- Shape behavior of a whole stage (an `nn.Sequential` of blocks). -/
def stageShape (cfgs : List BlockCfg) (sh : Shape) : Option Shape :=
  cfgs.foldl (fun acc cfg => acc.bind (blockShape cfg)) (some sh)

/-- Shape behavior of `ResNet.forward`: the stem (7×7 stride-2 padding-3
convolution to 64 channels, batch norm, relu, 3×3 stride-2 padding-1 max
pool), the four stages, adaptive average pooling to `(C, 1, 1)`,
`torch.flatten(x, 1)`, and `nn.Linear(512 * expansion, num_classes)`. -/
def ResNet.forwardShape (net : ResNetCfg) (sh : Shape) : Option ℕ :=
  ((((((convShape 3 64 7 2 3 sh).bind (bnShape 64)).bind
          (maxPoolShape 3 2 1)).bind
        (stageShape net.stage1)).bind
      (stageShape net.stage2)).bind
    (stageShape net.stage3)).bind (stageShape net.stage4) |>.bind fun s =>
      linearShape (512 * BasicBlock.expansion) net.numClasses
        (flattenLen (adaptiveAvgPoolShape s))

/-- Output shape for a whole batch of `n` images: every operation of the
network acts sample-wise on the batch dimension, so a batch maps to
`(n, num_classes)` exactly when one sample maps to `num_classes` scores. -/
def ResNet.batchedOutShape (net : ResNetCfg) (n : ℕ) (sh : Shape) : Option (ℕ × ℕ) :=
  (ResNet.forwardShape net sh).map fun k => (n, k)

/-- `resnet18()` from the notebook: `ResNet(BasicBlock, [2, 2, 2, 2])`
with the default `num_classes=10`. -/
def resnet18 : ResNetCfg := ResNet.build 2 2 2 2 10

/-- Learned parameters of the assembled network. -/
structure ResNetParams where
  conv1W : ℕ → ℕ → ℕ → ℕ → ℚ
  bn1 : BNParams
  layer1 : List BasicBlockParams
  layer2 : List BasicBlockParams
  layer3 : List BasicBlockParams
  layer4 : List BasicBlockParams
  fc : LinParams

/-- Value semantics of one stage: apply each block in turn, threading the
spatial extents (each block changes them through its stride). -/
def stageForwardV : List (BlockCfg × BasicBlockParams) → ℕ → ℕ → Img → Img × ℕ × ℕ
  | [], H, W, x => (x, H, W)
  | cp :: rest, H, W, x =>
      stageForwardV rest (convOut H 3 cp.1.stride 1) (convOut W 3 cp.1.stride 1)
        (BasicBlock.forward cp.2 cp.1.inC cp.1.outC cp.1.stride H W x)

/-- Value semantics of `ResNet.forward` on one `3 × H × W` image:
stem, four stages, adaptive average pool, flatten, final linear layer —
and nothing after the linear layer. -/
def ResNet.forwardV (net : ResNetCfg) (p : ResNetParams) (H W : ℕ) (x : Img) : ℕ → ℚ :=
  let x1 := reluI (bnV p.bn1 (conv2dV p.conv1W 3 7 2 3 H W x))
  let H1 := convOut H 7 2 3
  let W1 := convOut W 7 2 3
  let x2 := maxPoolV 3 2 1 H1 W1 x1
  let H2 := convOut H1 3 2 1
  let W2 := convOut W1 3 2 1
  let r1 := stageForwardV (net.stage1.zip p.layer1) H2 W2 x2
  let r2 := stageForwardV (net.stage2.zip p.layer2) r1.2.1 r1.2.2 r1.1
  let r3 := stageForwardV (net.stage3.zip p.layer3) r2.2.1 r2.2.2 r2.1
  let r4 := stageForwardV (net.stage4.zip p.layer4) r3.2.1 r3.2.2 r3.1
  let pooled := adaptiveAvgPool11V r4.2.1 r4.2.2 r4.1
  linearV p.fc (512 * BasicBlock.expansion) (flattenV 1 1 pooled)

/-! The two `SimpleCNN` definitions (first notebook), at the notebook's
input size 3 × 32 × 32. -/

/-- Learned parameters of a `SimpleCNN`. -/
structure SimpleCNNParams where
  conv1W : ℕ → ℕ → ℕ → ℕ → ℚ
  conv1B : ℕ → ℚ
  conv2W : ℕ → ℕ → ℕ → ℕ → ℚ
  conv2B : ℕ → ℚ
  fc1 : LinParams
  fc2 : LinParams

/-- The first `SimpleCNN.forward`: `pool(relu(conv1 x))`,
`pool(relu(conv2 x))`, `x.view(-1, 64*8*8)`, `relu(fc1 x)`, and finally
`fc2 x` with no activation. -/
def SimpleCNN.forward (p : SimpleCNNParams) (x : Img) : ℕ → ℚ :=
  let x1 := maxPoolV 2 2 0 32 32 (reluI (conv2dBiasV p.conv1W p.conv1B 3 3 1 1 32 32 x))
  let x2 := maxPoolV 2 2 0 16 16 (reluI (conv2dBiasV p.conv2W p.conv2B 32 3 1 1 16 16 x1))
  let v := flattenV 8 8 x2
  let v1 := reluV (linearV p.fc1 (64 * 8 * 8) v)
  linearV p.fc2 128 v1

/-- The second, redefining `SimpleCNN.forward` (the version with the shape
prints): identical layers, but the final line is
`x = torch.relu(self.fc2(x))` — the last linear layer IS activated. -/
def SimpleCNN2.forward (p : SimpleCNNParams) (x : Img) : ℕ → ℚ :=
  let x1 := maxPoolV 2 2 0 32 32 (reluI (conv2dBiasV p.conv1W p.conv1B 3 3 1 1 32 32 x))
  let x2 := maxPoolV 2 2 0 16 16 (reluI (conv2dBiasV p.conv2W p.conv2B 32 3 1 1 16 16 x1))
  let v := flattenV 8 8 x2
  let v1 := reluV (linearV p.fc1 (64 * 8 * 8) v)
  reluV (linearV p.fc2 128 v1)

/-! Concrete instances used by witnesses and counterexamples. -/

/-- The all-zero image. -/
def zeroImg : Img := fun _ _ _ => 0

/-- A batch norm with zero scale and shift. -/
def zeroBN : BNParams := ⟨fun _ => 0, fun _ => 0⟩

/-- A `BasicBlock` parameter set with zero weights and no downsample. -/
def zeroBlockP : BasicBlockParams :=
  ⟨(fun _ _ _ _ => 0), zeroBN, (fun _ _ _ _ => 0), zeroBN, none⟩

/-- A linear layer with zero weights and bias `-1` everywhere. -/
def negFc : LinParams := ⟨fun _ _ => 0, fun _ => -1⟩

/-- ResNet-18 parameters whose final linear layer outputs `-1` everywhere. -/
def negResNetP : ResNetParams :=
  ⟨(fun _ _ _ _ => 0), zeroBN, List.replicate 2 zeroBlockP, List.replicate 2 zeroBlockP,
    List.replicate 2 zeroBlockP, List.replicate 2 zeroBlockP, negFc⟩

/-- `SimpleCNN` parameters whose final linear layer outputs `-1` everywhere. -/
def negSimpleP : SimpleCNNParams :=
  ⟨(fun _ _ _ _ => 0), (fun _ => 0), (fun _ _ _ _ => 0), (fun _ => 0),
    ⟨fun _ _ => 0, fun _ => 0⟩, negFc⟩

/-- An epoch-result stream whose validation accuracy is 0 at every epoch. -/
def constZeroEnv : ℕ → EpochRes := fun _ => ((0, 0), (0, 0))

/-- The four-epoch validation-accuracy trace [0.1, 0.05, 0.3, 0.2] named by
the spec (train scalars and validation losses set to 0; they do not enter
the checkpoint decision). -/
def traceEnv : ℕ → EpochRes := fun e =>
  [((0, 0), (0, Rat.mk' 1 10 (by norm_num) (by norm_num))),
   ((0, 0), (0, Rat.mk' 1 20 (by norm_num) (by norm_num))),
   ((0, 0), (0, Rat.mk' 3 10 (by norm_num) (by norm_num))),
   ((0, 0), (0, Rat.mk' 1 5 (by norm_num) (by norm_num)))].getD e ((0, 0), (0, 0))

/-- A single concrete training batch: one sample, score vector zero,
label 0, loss value 1. -/
def oneBatch : BatchRes := ⟨[fun _ => 0], [0], 1⟩

/-- The scalar quadruple one loop iteration observes: the
`(train_loss, train_acc)` pair returned by `train_one_epoch` on that
epoch's training batches followed by the `(val_loss, val_acc)` pair
returned by `validate` on that epoch's validation batches. -/
def epochResOf {μ ξ : Type} (fw : μ → List ξ → List (ℕ → ℚ))
    (lossF : List (ℕ → ℚ) → List ℕ → ℚ) (c : ℕ) (trainBs : ℕ → List BatchRes)
    (valBs : ℕ → List (List ξ × List ℕ)) (m : μ) (e : ℕ) : EpochRes :=
  (((trainOneEpoch c (trainBs e)).avgLoss, (trainOneEpoch c (trainBs e)).avgAcc),
   ((validate fw lossF c m (valBs e)).avgLoss, (validate fw lossF c m (valBs e)).avgAcc))

/-- The training script's loop body with the two epoch-runner calls made
explicit, in source order: run `train_one_epoch`, then run `validate`,
then log the four scalars, print the summary line and save on improvement.
The second component accumulates the events the two passes emit, in
execution order. -/
def driverStepFull {μ ξ : Type} (fw : μ → List ξ → List (ℕ → ℚ))
    (lossF : List (ℕ → ℚ) → List ℕ → ℚ) (c numEpochs : ℕ)
    (trainBs : ℕ → List BatchRes) (valBs : ℕ → List (List ξ × List ℕ)) (m : μ)
    (st : DriverState × List Ev) (epoch : ℕ) : DriverState × List Ev :=
  (driverStep numEpochs (epochResOf fw lossF c trainBs valBs m) st.1 epoch,
   st.2 ++ (trainOneEpoch c (trainBs epoch)).trace ++
     (validate fw lossF c m (valBs epoch)).trace)

/-- The whole training script with the epoch-runner calls explicit:
`num_epochs` iterations, each running one training pass followed by one
validation pass before the bookkeeping. -/
def runDriverFull {μ ξ : Type} (fw : μ → List ξ → List (ℕ → ℚ))
    (lossF : List (ℕ → ℚ) → List ℕ → ℚ) (c numEpochs : ℕ)
    (trainBs : ℕ → List BatchRes) (valBs : ℕ → List (List ξ × List ℕ)) (m : μ) :
    DriverState × List Ev :=
  (List.range numEpochs).foldl (driverStepFull fw lossF c numEpochs trainBs valBs m)
    (DriverState.init, [])

/-! Helper lemmas. -/

theorem AverageMeter.runUpdates_cons (m : AverageMeter) (a : ℚ × ℕ) (t : List (ℚ × ℕ)) :
    m.runUpdates (a :: t) = (m.update a.1 a.2).runUpdates t := rfl

theorem castListSum (l : List ℕ) : ((l.sum : ℕ) : ℚ) = (l.map fun n : ℕ => (n : ℚ)).sum := by
  induction l with
  | nil => simp
  | cons a t ih => rw [List.sum_cons, List.map_cons, List.sum_cons, Nat.cast_add, ih]

theorem AverageMeter.runUpdates_sum (l : List (ℚ × ℕ)) : ∀ m : AverageMeter,
    (m.runUpdates l).sum = m.sum + (l.map fun p => p.1 * (p.2 : ℚ)).sum := by
  induction l with
  | nil => intro m; simp [AverageMeter.runUpdates]
  | cons a t ih =>
      intro m
      rw [AverageMeter.runUpdates_cons, ih]
      simp [AverageMeter.update]
      ring

theorem AverageMeter.runUpdates_count (l : List (ℚ × ℕ)) : ∀ m : AverageMeter,
    (m.runUpdates l).count = m.count + (l.map fun p => p.2).sum := by
  induction l with
  | nil => intro m; simp [AverageMeter.runUpdates]
  | cons a t ih =>
      intro m
      rw [AverageMeter.runUpdates_cons, ih]
      simp [AverageMeter.update]
      ring

/-- C3: the metric accumulator computes the weighted mean of the supplied
values, and 0 for the empty sequence; `reset` yields (sum=0, count=0) and
each `update` adds `value * weight` to `sum` and `weight` to `count`. -/
theorem averageMeter_weighted_mean :
    (AverageMeter.reset.sum = 0 ∧ AverageMeter.reset.count = 0) ∧
    (∀ (m : AverageMeter) (v : ℚ) (n : ℕ),
        (m.update v n).sum = m.sum + v * (n : ℚ) ∧ (m.update v n).count = m.count + n) ∧
    (AverageMeter.reset.runUpdates []).avg = 0 ∧
    (∀ l : List (ℚ × ℕ),
        (AverageMeter.reset.runUpdates l).avg =
          (l.map fun p => p.1 * (p.2 : ℚ)).sum / (l.map fun p => (p.2 : ℚ)).sum) := by
  refine ⟨⟨rfl, rfl⟩, fun m v n => ⟨rfl, rfl⟩, rfl, fun l => ?_⟩
  have hden : (l.map fun p => ((p.2 : ℕ) : ℚ)).sum = (((l.map fun p => p.2).sum : ℕ) : ℚ) := by
    rw [castListSum, List.map_map]
    rfl
  rw [AverageMeter.avg, AverageMeter.runUpdates_sum, AverageMeter.runUpdates_count]
  simp only [AverageMeter.reset, zero_add]
  by_cases h : (l.map fun p => p.2).sum = 0
  · rw [h]
    simp only [Nat.lt_irrefl, if_false]
    rw [hden, h]
    simp
  · rw [if_pos (Nat.pos_of_ne_zero h), hden]

theorem trainLoop_trace (c : ℕ) (bs : List BatchRes) :
    ∀ (meter : AverageMeter) (acc : MulticlassAcc) (tr : List Ev),
      (trainLoop c bs meter acc tr).2.2 = tr ++ bs.flatMap trainBatchEvs := by
  induction bs with
  | nil => intro m a t; simp [trainLoop]
  | cons b rest ih =>
      intro m a t
      rw [trainLoop, ih, List.flatMap_cons, List.append_assoc]

theorem trainLoop_meter (c : ℕ) (bs : List BatchRes) :
    ∀ (meter : AverageMeter) (acc : MulticlassAcc) (tr : List Ev),
      (trainLoop c bs meter acc tr).1 =
        meter.runUpdates (bs.map fun b => (b.lossVal, b.preds.length)) := by
  induction bs with
  | nil => intro m a t; rfl
  | cons b rest ih =>
      intro m a t
      rw [trainLoop, ih, List.map_cons, AverageMeter.runUpdates_cons]

theorem trainLoop_acc (c : ℕ) (bs : List BatchRes) :
    ∀ (meter : AverageMeter) (acc : MulticlassAcc) (tr : List Ev),
      (trainLoop c bs meter acc tr).2.1 =
        ⟨acc.correct + (bs.map fun b => countCorrect c b.preds b.labels).sum,
         acc.total + (bs.map fun b => b.preds.length).sum⟩ := by
  induction bs with
  | nil => intro m a t; simp [trainLoop]
  | cons b rest ih =>
      intro m a t
      rw [trainLoop, ih]
      simp only [MulticlassAcc.updateBatch, List.map_cons, List.sum_cons, MulticlassAcc.mk.injEq]
      omega

/-- C2 (amended): in training mode the Epoch Runner performs, per batch and
in this order: compute predictions, compute the scalar loss, reset
accumulated gradients, propagate gradients, apply the parameter update;
it feeds (loss value, batch size) into the loss accumulator, derives the
predicted class as the arg-max over the class dimension and compares it
against the labels, and returns the weighted average loss and the overall
accuracy of the pass. -/
theorem trainOneEpoch_spec :
    ∀ (c : ℕ) (bs : List BatchRes),
      (trainOneEpoch c bs).trace = Ev.trainMode :: bs.flatMap trainBatchEvs ∧
      (trainOneEpoch c bs).avgLoss =
        (if 0 < (bs.map fun b => b.preds.length).sum then
          (bs.map fun b => b.lossVal * (b.preds.length : ℚ)).sum /
            (((bs.map fun b => b.preds.length).sum : ℕ) : ℚ)
        else 0) ∧
      (trainOneEpoch c bs).avgAcc =
        (if 0 < (bs.map fun b => b.preds.length).sum then
          (((bs.map fun b => countCorrect c b.preds b.labels).sum : ℕ) : ℚ) /
            (((bs.map fun b => b.preds.length).sum : ℕ) : ℚ)
        else 0) := by
  intro c bs
  refine ⟨?_, ?_, ?_⟩
  · show (trainLoop c bs AverageMeter.reset MulticlassAcc.reset [Ev.trainMode]).2.2 = _
    rw [trainLoop_trace]
    rfl
  · show (trainLoop c bs AverageMeter.reset MulticlassAcc.reset [Ev.trainMode]).1.avg = _
    rw [trainLoop_meter, AverageMeter.avg, AverageMeter.runUpdates_sum,
        AverageMeter.runUpdates_count, List.map_map, List.map_map]
    simp only [AverageMeter.reset, zero_add, Function.comp]
    rfl
  · show (trainLoop c bs AverageMeter.reset MulticlassAcc.reset [Ev.trainMode]).2.1.compute = _
    rw [trainLoop_acc]
    simp only [MulticlassAcc.compute, MulticlassAcc.reset, zero_add]

/-- C2 counterexample: the per-batch step order the claim states
(predictions, loss, propagate, update, reset) is not the trace the code
emits — the source resets accumulated gradients before `loss.backward()`
and `optimizer.step()`, not after. -/
theorem trainOneEpoch_order_counterexample :
    (trainOneEpoch 2 [oneBatch]).trace ≠
      [Ev.trainMode, Ev.forwardE, Ev.lossE, Ev.backward, Ev.step, Ev.zeroGrad,
       Ev.meterUpd 1 1, Ev.accUpd] := by
  decide

theorem valLoop_trace {μ ξ : Type} (fw : μ → List ξ → List (ℕ → ℚ))
    (lossF : List (ℕ → ℚ) → List ℕ → ℚ) (c : ℕ) (m : μ) (bs : List (List ξ × List ℕ)) :
    ∀ (meter : AverageMeter) (acc : MulticlassAcc) (tr : List Ev),
      (valLoop fw lossF c m bs meter acc tr).2.2 =
        tr ++ bs.flatMap fun b => valBatchEvs (lossF (fw m b.1) b.2) b.1.length := by
  induction bs with
  | nil => intro mt a t; simp [valLoop]
  | cons b rest ih =>
      intro mt a t
      rw [valLoop, ih, List.flatMap_cons, List.append_assoc]

/-- C7: the Epoch Runner in validation mode never mutates the model: the
model after the pass is the model before it, the pass emits no gradient
propagation, no optimizer step and no gradient reset, and running the same
validation stream again on the resulting model returns the same
(average loss, average accuracy) pair. -/
theorem validate_readonly :
    ∀ (μ ξ : Type) (fw : μ → List ξ → List (ℕ → ℚ))
      (lossF : List (ℕ → ℚ) → List ℕ → ℚ) (c : ℕ) (m : μ)
      (bs : List (List ξ × List ℕ)),
      (validate fw lossF c m bs).model = m ∧
      (∀ e ∈ (validate fw lossF c m bs).trace,
          e ≠ Ev.backward ∧ e ≠ Ev.step ∧ e ≠ Ev.zeroGrad) ∧
      (validate fw lossF c ((validate fw lossF c m bs).model) bs).avgLoss =
          (validate fw lossF c m bs).avgLoss ∧
      (validate fw lossF c ((validate fw lossF c m bs).model) bs).avgAcc =
          (validate fw lossF c m bs).avgAcc := by
  intro μ ξ fw lossF c m bs
  refine ⟨rfl, ?_, rfl, rfl⟩
  intro e he
  have htr : (validate fw lossF c m bs).trace =
      [Ev.evalMode] ++ bs.flatMap fun b => valBatchEvs (lossF (fw m b.1) b.2) b.1.length :=
    valLoop_trace fw lossF c m bs AverageMeter.reset MulticlassAcc.reset [Ev.evalMode]
  rw [htr] at he
  rcases List.mem_append.mp he with h1 | h2
  · rw [List.mem_singleton.mp h1]
    refine ⟨by simp, by simp, by simp⟩
  · rcases List.mem_flatMap.mp h2 with ⟨b, _, hb⟩
    simp only [valBatchEvs, List.mem_cons, List.not_mem_nil, or_false] at hb
    rcases hb with h | h | h | h <;> rw [h] <;> refine ⟨by simp, by simp, by simp⟩

/-- Concrete instance of `validate_readonly`. -/
theorem validate_readonly_witness :
    (validate (fun (_ : Unit) (_ : List Unit) => ([] : List (ℕ → ℚ)))
        (fun _ _ => 0) 10 () [([], [0])]).model = () ∧
    Ev.evalMode ≠ Ev.backward :=
  ⟨(validate_readonly Unit Unit (fun _ _ => []) (fun _ _ => 0) 10 () [([], [0])]).1,
   ((validate_readonly Unit Unit (fun _ _ => []) (fun _ _ => 0) 10 () [([], [0])]).2.1
      Ev.evalMode (by decide)).1⟩

theorem runDriverAux_succ (T : ℕ) (env : ℕ → EpochRes) (n : ℕ) :
    runDriverAux T env (n + 1) = driverStep T env (runDriverAux T env n) n := by
  rw [runDriverAux, runDriverAux, List.range_succ, List.foldl_append]
  rfl

theorem driverStep_best (T : ℕ) (env : ℕ → EpochRes) (s : DriverState) (e : ℕ) :
    (driverStep T env s e).bestValAcc = max s.bestValAcc (env e).2.2 := by
  rw [driverStep]
  split
  · next h => exact (max_eq_right (le_of_lt (show s.bestValAcc < (env e).2.2 from h))).symm
  · next h => exact (max_eq_left (not_lt.mp (show ¬ s.bestValAcc < (env e).2.2 from h))).symm

theorem driverStep_checkpoints (T : ℕ) (env : ℕ → EpochRes) (s : DriverState) (e : ℕ) :
    (driverStep T env s e).checkpoints =
      if s.bestValAcc < (env e).2.2 then s.checkpoints ++ [e] else s.checkpoints := by
  rw [driverStep]
  split <;> rfl

theorem driverStep_logs (T : ℕ) (env : ℕ → EpochRes) (s : DriverState) (e : ℕ) :
    (driverStep T env s e).logs = s.logs ++
      [("Loss/Train", (env e).1.1, e), ("Accuracy/Train", (env e).1.2, e),
       ("Loss/Validation", (env e).2.1, e), ("Accuracy/Validation", (env e).2.2, e)] := by
  rw [driverStep]
  split <;> rfl

theorem driverStep_summaries (T : ℕ) (env : ℕ → EpochRes) (s : DriverState) (e : ℕ) :
    (driverStep T env s e).summaries = s.summaries ++
      [(e + 1, T, (env e).1.1, (env e).1.2, (env e).2.1, (env e).2.2)] := by
  rw [driverStep]
  split <;> rfl

theorem runDriverAux_best (T : ℕ) (env : ℕ → EpochRes) :
    ∀ n, (runDriverAux T env n).bestValAcc = bestUpTo env n := by
  intro n
  induction n with
  | zero => rfl
  | succ k ih => rw [runDriverAux_succ, driverStep_best, ih, bestUpTo]

theorem bestUpTo_nonneg (env : ℕ → EpochRes) : ∀ n, 0 ≤ bestUpTo env n := by
  intro n
  induction n with
  | zero => exact le_refl 0
  | succ k ih => exact le_trans ih (le_max_left _ _)

theorem bestUpTo_lt_iff (env : ℕ → EpochRes) (x : ℚ) :
    ∀ j, bestUpTo env j < x ↔ (0 < x ∧ ∀ i, i < j → (env i).2.2 < x) := by
  intro j
  induction j with
  | zero =>
      constructor
      · intro h; exact ⟨h, fun i hi => absurd hi (Nat.not_lt_zero i)⟩
      · intro h; exact h.1
  | succ k ih =>
      rw [bestUpTo, max_lt_iff, ih]
      constructor
      · rintro ⟨⟨hx, hall⟩, hk⟩
        refine ⟨hx, fun i hi => ?_⟩
        rcases Nat.lt_succ_iff_lt_or_eq.mp hi with h | h
        · exact hall i h
        · rw [h]; exact hk
      · rintro ⟨hx, hall⟩
        exact ⟨⟨hx, fun i hi => hall i (Nat.lt_succ_of_lt hi)⟩, hall k (Nat.lt_succ_self k)⟩

theorem runDriverAux_ckpt_mem (T : ℕ) (env : ℕ → EpochRes) :
    ∀ n j, j ∈ (runDriverAux T env n).checkpoints ↔
      (j < n ∧ bestUpTo env j < (env j).2.2) := by
  intro n
  induction n with
  | zero =>
      intro j
      simp [runDriverAux, DriverState.init]
  | succ k ih =>
      intro j
      rw [runDriverAux_succ, driverStep_checkpoints, runDriverAux_best]
      split
      · next h =>
        rw [List.mem_append, List.mem_singleton, ih]
        constructor
        · rintro (⟨hj, hb⟩ | h2)
          · exact ⟨Nat.lt_succ_of_lt hj, hb⟩
          · subst h2
            exact ⟨Nat.lt_succ_self j, h⟩
        · rintro ⟨hj, hb⟩
          rcases Nat.lt_succ_iff_lt_or_eq.mp hj with h2 | h2
          · exact Or.inl ⟨h2, hb⟩
          · exact Or.inr h2
      · next h =>
        rw [ih]
        constructor
        · rintro ⟨hj, hb⟩
          exact ⟨Nat.lt_succ_of_lt hj, hb⟩
        · rintro ⟨hj, hb⟩
          rcases Nat.lt_succ_iff_lt_or_eq.mp hj with h2 | h2
          · exact ⟨h2, hb⟩
          · exact absurd (h2 ▸ hb) h

theorem runDriverAux_logs (T : ℕ) (env : ℕ → EpochRes) :
    ∀ n, (runDriverAux T env n).logs = (List.range n).flatMap fun e =>
      [("Loss/Train", (env e).1.1, e), ("Accuracy/Train", (env e).1.2, e),
       ("Loss/Validation", (env e).2.1, e), ("Accuracy/Validation", (env e).2.2, e)] := by
  intro n
  induction n with
  | zero => rfl
  | succ k ih =>
      rw [runDriverAux_succ, driverStep_logs, ih, List.range_succ, List.flatMap_append]
      simp

theorem runDriverAux_summaries (T : ℕ) (env : ℕ → EpochRes) :
    ∀ n, (runDriverAux T env n).summaries = (List.range n).map fun e =>
      (e + 1, T, (env e).1.1, (env e).1.2, (env e).2.1, (env e).2.2) := by
  intro n
  induction n with
  | zero => rfl
  | succ k ih =>
      rw [runDriverAux_succ, driverStep_summaries, ih, List.range_succ, List.map_append]
      simp

theorem trainOneEpoch_trace (c : ℕ) (bs : List BatchRes) :
    (trainOneEpoch c bs).trace = Ev.trainMode :: bs.flatMap trainBatchEvs := by
  show (trainLoop c bs AverageMeter.reset MulticlassAcc.reset [Ev.trainMode]).2.2 = _
  rw [trainLoop_trace]
  rfl

theorem validate_trace {μ ξ : Type} (fw : μ → List ξ → List (ℕ → ℚ))
    (lossF : List (ℕ → ℚ) → List ℕ → ℚ) (c : ℕ) (m : μ)
    (bs : List (List ξ × List ℕ)) :
    (validate fw lossF c m bs).trace =
      Ev.evalMode :: (bs.flatMap fun b => valBatchEvs (lossF (fw m b.1) b.2) b.1.length) := by
  show (valLoop fw lossF c m bs AverageMeter.reset MulticlassAcc.reset [Ev.evalMode]).2.2 = _
  rw [valLoop_trace]
  rfl

theorem runDriverFull_components {μ ξ : Type} (fw : μ → List ξ → List (ℕ → ℚ))
    (lossF : List (ℕ → ℚ) → List ℕ → ℚ) (c T : ℕ)
    (trainBs : ℕ → List BatchRes) (valBs : ℕ → List (List ξ × List ℕ)) (m : μ) :
    ∀ n,
      ((List.range n).foldl (driverStepFull fw lossF c T trainBs valBs m)
          (DriverState.init, [])).1 =
        runDriverAux T (epochResOf fw lossF c trainBs valBs m) n ∧
      ((List.range n).foldl (driverStepFull fw lossF c T trainBs valBs m)
          (DriverState.init, [])).2 =
        ((List.range n).flatMap fun e =>
          (trainOneEpoch c (trainBs e)).trace ++ (validate fw lossF c m (valBs e)).trace) := by
  intro n
  induction n with
  | zero => exact ⟨rfl, rfl⟩
  | succ k ih =>
      rw [List.range_succ, List.foldl_append, List.foldl_cons, List.foldl_nil]
      constructor
      · rw [runDriverAux_succ]
        exact congrArg
          (fun s => driverStep T (epochResOf fw lossF c trainBs valBs m) s k) ih.1
      · show _ ++ (trainOneEpoch c (trainBs k)).trace ++
            (validate fw lossF c m (valBs k)).trace = _
        rw [ih.2, List.flatMap_append]
        simp [List.append_assoc]

/-- C8: the driver runs exactly `num_epochs` iterations unconditionally,
each iteration running one training pass followed by one validation pass
(the emitted event trace is, per epoch, the training pass's events then
the validation pass's events); after each epoch it emits the four scalars
the two runners returned (train loss, train accuracy, validation loss,
validation accuracy) to the log collector under the four tags in order,
and prints exactly one per-epoch summary line carrying
`(epoch+1, num_epochs)` and the same four scalars. -/
theorem driver_epoch_logging :
    ∀ (μ ξ : Type) (fw : μ → List ξ → List (ℕ → ℚ))
      (lossF : List (ℕ → ℚ) → List ℕ → ℚ) (c numEpochs : ℕ)
      (trainBs : ℕ → List BatchRes) (valBs : ℕ → List (List ξ × List ℕ)) (m : μ),
      (runDriverFull fw lossF c numEpochs trainBs valBs m).2 =
        ((List.range numEpochs).flatMap fun e =>
          (Ev.trainMode :: (trainBs e).flatMap trainBatchEvs) ++
            Ev.evalMode ::
              ((valBs e).flatMap fun b => valBatchEvs (lossF (fw m b.1) b.2) b.1.length)) ∧
      (runDriverFull fw lossF c numEpochs trainBs valBs m).1 =
        runDriver numEpochs (epochResOf fw lossF c trainBs valBs m) ∧
      (runDriverFull fw lossF c numEpochs trainBs valBs m).1.summaries =
        ((List.range numEpochs).map fun e =>
          (e + 1, numEpochs, (trainOneEpoch c (trainBs e)).avgLoss,
            (trainOneEpoch c (trainBs e)).avgAcc,
            (validate fw lossF c m (valBs e)).avgLoss,
            (validate fw lossF c m (valBs e)).avgAcc)) ∧
      (runDriverFull fw lossF c numEpochs trainBs valBs m).1.logs =
        ((List.range numEpochs).flatMap fun e =>
          [("Loss/Train", (trainOneEpoch c (trainBs e)).avgLoss, e),
           ("Accuracy/Train", (trainOneEpoch c (trainBs e)).avgAcc, e),
           ("Loss/Validation", (validate fw lossF c m (valBs e)).avgLoss, e),
           ("Accuracy/Validation", (validate fw lossF c m (valBs e)).avgAcc, e)]) ∧
      (runDriverFull fw lossF c numEpochs trainBs valBs m).1.summaries.length = numEpochs := by
  intro μ ξ fw lossF c T trainBs valBs m
  have h := runDriverFull_components fw lossF c T trainBs valBs m T
  refine ⟨?_, h.1, ?_, ?_, ?_⟩
  · rw [show (runDriverFull fw lossF c T trainBs valBs m).2 = _ from h.2]
    congr 1
    funext e
    rw [trainOneEpoch_trace, validate_trace]
  · rw [show (runDriverFull fw lossF c T trainBs valBs m).1 = _ from h.1]
    exact runDriverAux_summaries T (epochResOf fw lossF c trainBs valBs m) T
  · rw [show (runDriverFull fw lossF c T trainBs valBs m).1 = _ from h.1]
    exact runDriverAux_logs T (epochResOf fw lossF c trainBs valBs m) T
  · rw [show (runDriverFull fw lossF c T trainBs valBs m).1 = _ from h.1,
        runDriverAux_summaries T (epochResOf fw lossF c trainBs valBs m) T,
        List.length_map, List.length_range]

/-- C1 counterexample: on a one-epoch run whose validation accuracy is 0,
epoch 0 strictly exceeds every prior epoch's validation accuracy
(vacuously — there are none), yet the code writes no checkpoint at epoch 0,
because `best_val_acc` is initialized to 0.0 and the comparison is strict. -/
theorem driver_checkpoint_counterexample :
    (∀ i, i < 0 → (constZeroEnv i).2.2 < (constZeroEnv 0).2.2) ∧
    0 ∉ (runDriver 1 constZeroEnv).checkpoints :=
  ⟨fun i hi => absurd hi (Nat.not_lt_zero i), by decide⟩

/-- C1 (amended): the driver overwrites the best checkpoint at an epoch iff
that epoch's validation accuracy is strictly positive (i.e. strictly
exceeds the initial best value 0.0) and strictly exceeds every prior
epoch's validation accuracy; a tie never triggers a write.  On the
validation-accuracy trace [0.1, 0.05, 0.3, 0.2] checkpoints are written
exactly at epochs 0 and 2 and the final best_val_acc equals 0.3. -/
theorem driver_checkpoint_iff :
    (∀ (numEpochs : ℕ) (env : ℕ → EpochRes) (j : ℕ),
        j ∈ (runDriver numEpochs env).checkpoints ↔
          j < numEpochs ∧ 0 < (env j).2.2 ∧
            ∀ i, i < j → (env i).2.2 < (env j).2.2) ∧
    (runDriver 4 traceEnv).checkpoints = [0, 2] ∧
    (runDriver 4 traceEnv).bestValAcc = 3 / 10 := by
  refine ⟨?_, by decide, ?_⟩
  · intro T env j
    rw [runDriver, runDriverAux_ckpt_mem T env T j, bestUpTo_lt_iff env _ j]
  · have h1 : (runDriver 4 traceEnv).bestValAcc =
        Rat.mk' 3 10 (by norm_num) (by norm_num) := by decide
    rw [h1, Rat.mk'_eq_divInt, Rat.divInt_eq_div]
    norm_num

/-- Concrete instance of `driver_checkpoint_iff`. -/
theorem driver_checkpoint_iff_witness :
    2 ∈ (runDriver 4 traceEnv).checkpoints :=
  (driver_checkpoint_iff.1 4 traceEnv 2).mpr
    ⟨by decide, by decide, fun i hi => by interval_cases i <;> decide⟩

/-- C9: `best_val_acc` is initialized to 0.0, so a checkpoint is written at
an epoch only if that epoch's validation accuracy is strictly positive; a
run whose validation accuracy is 0 at every epoch writes no checkpoint and
ends with best_val_acc = 0. -/
theorem driver_zero_accuracy_no_checkpoint :
    DriverState.init.bestValAcc = 0 ∧
    (∀ (numEpochs : ℕ) (env : ℕ → EpochRes) (j : ℕ),
        j ∈ (runDriver numEpochs env).checkpoints → 0 < (env j).2.2) ∧
    (∀ (numEpochs : ℕ) (env : ℕ → EpochRes),
        (∀ e, e < numEpochs → (env e).2.2 = 0) →
          (runDriver numEpochs env).checkpoints = [] ∧
          (runDriver numEpochs env).bestValAcc = 0) := by
  refine ⟨rfl, ?_, ?_⟩
  · intro T env j hj
    have h := (runDriverAux_ckpt_mem T env T j).mp hj
    exact lt_of_le_of_lt (bestUpTo_nonneg env j) h.2
  · intro T env hz
    constructor
    · rw [List.eq_nil_iff_forall_not_mem]
      intro j hj
      have h := (runDriverAux_ckpt_mem T env T j).mp hj
      have h0 : (env j).2.2 = 0 := hz j h.1
      have hlt := lt_of_le_of_lt (bestUpTo_nonneg env j) h.2
      rw [h0] at hlt
      exact absurd hlt (lt_irrefl 0)
    · rw [runDriver, runDriverAux_best]
      have hb : ∀ n, n ≤ T → bestUpTo env n = 0 := by
        intro n
        induction n with
        | zero => intro _; rfl
        | succ k ih =>
            intro hk
            rw [bestUpTo, ih (Nat.le_of_succ_le hk), hz k (Nat.lt_of_succ_le hk)]
            exact max_self 0
      exact hb T (le_refl T)

/-- Concrete instance of `driver_zero_accuracy_no_checkpoint`. -/
theorem driver_zero_accuracy_no_checkpoint_witness :
    (runDriver 2 constZeroEnv).checkpoints = [] ∧
    (runDriver 2 constZeroEnv).bestValAcc = 0 :=
  driver_zero_accuracy_no_checkpoint.2.2 2 constZeroEnv (fun _ _ => rfl)

theorem convOut_stride_one (h : ℕ) (hh : 1 ≤ h) : convOut h 3 1 1 = h := by
  rw [convOut, Nat.div_one]
  omega

theorem blockShape_identity (C H W : ℕ) (hH : 1 ≤ H) (hW : 1 ≤ W) :
    blockShape ⟨C, C, 1, false⟩ (C, H, W) = some (C, H, W) := by
  have hH3 : 3 ≤ H + 2 * 1 := by omega
  have hW3 : 3 ≤ W + 2 * 1 := by omega
  simp [blockShape, convShape, bnShape, hH3, hW3, hH, hW,
        convOut_stride_one H hH, convOut_stride_one W hW]

/-- C4: the residual block computes
`activate(N2(conv2(activate(N1(conv1 x)))) + identity)` with
`identity = downsample(x)` when a downsample transform is configured and
`identity = x` otherwise; blocks the assembler creates with stride 1 and
matching channel counts carry no downsample transform; such a block
preserves the input shape exactly and computes `activate(F(x) + x)` for
its internal transform `F`. -/
theorem basicBlock_residual :
    (∀ (p : BasicBlockParams) (inC outC stride H W : ℕ) (x : Img),
        BasicBlock.forward p inC outC stride H W x =
          reluI fun c i j =>
            BasicBlock.mainPath p inC outC stride H W x c i j +
              BasicBlock.identityPath p inC stride H W x c i j) ∧
    (∀ (inCh outC n stride : ℕ), stride = 1 → inCh = outC * BasicBlock.expansion →
        ∀ cfg ∈ (ResNet.makeLayer inCh outC n stride).1, cfg.hasDownsample = false) ∧
    (∀ (C H W : ℕ), 1 ≤ H → 1 ≤ W →
        blockShape ⟨C, C, 1, false⟩ (C, H, W) = some (C, H, W)) ∧
    (∀ (p : BasicBlockParams) (inC outC stride H W : ℕ) (x : Img),
        p.downsample = none →
          BasicBlock.forward p inC outC stride H W x =
            reluI fun c i j =>
              BasicBlock.mainPath p inC outC stride H W x c i j + x c i j) := by
  refine ⟨fun p inC outC stride H W x => rfl, ?_, blockShape_identity, ?_⟩
  · intro inCh outC n stride h1 h2 cfg hcfg
    subst h1
    subst h2
    simp only [ResNet.makeLayer] at hcfg
    rcases List.mem_cons.mp hcfg with h | h
    · rw [h]
      simp
    · rw [List.eq_of_mem_replicate h]
  · intro p inC outC stride H W x h
    rw [BasicBlock.forward, BasicBlock.mainPath, h]

/-- Concrete instance of `basicBlock_residual`. -/
theorem basicBlock_residual_witness :
    blockShape ⟨64, 64, 1, false⟩ (64, 8, 8) = some (64, 8, 8) ∧
    BasicBlock.forward zeroBlockP 64 64 1 8 8 zeroImg =
      reluI fun c i j =>
        BasicBlock.mainPath zeroBlockP 64 64 1 8 8 zeroImg c i j + zeroImg c i j :=
  ⟨basicBlock_residual.2.2.1 64 8 8 (by decide) (by decide),
   basicBlock_residual.2.2.2 zeroBlockP 64 64 1 8 8 zeroImg rfl⟩

/-- C5: for a stage of `count ≥ 1` blocks, `_make_layer` emits exactly
`count` blocks; the first uses the stage stride and carries a downsample
transform exactly when the stride is not 1 or the running input-channel
tracker differs from the stage width; every later block uses stride 1 and
never downsamples; the returned channel tracker equals the stage width;
the downsample transform is a 1×1 stride-matching convolution followed by
normalization, and whenever a block's forward shape is defined its
downsample path produces exactly the block's output shape. -/
theorem makeLayer_stage :
    ∀ (inCh outC n stride : ℕ), 1 ≤ n →
      (ResNet.makeLayer inCh outC n stride).1 =
          ⟨inCh, outC, stride, stride != 1 || inCh != outC * BasicBlock.expansion⟩ ::
            List.replicate (n - 1) ⟨outC * BasicBlock.expansion, outC, 1, false⟩ ∧
      (ResNet.makeLayer inCh outC n stride).2 = outC * BasicBlock.expansion ∧
      (ResNet.makeLayer inCh outC n stride).1.length = n ∧
      ((stride != 1 || inCh != outC * BasicBlock.expansion) = true ↔
          (stride ≠ 1 ∨ inCh ≠ outC * BasicBlock.expansion)) ∧
      (∀ cfg ∈ (ResNet.makeLayer inCh outC n stride).1.tail,
          cfg.stride = 1 ∧ cfg.hasDownsample = false) ∧
      (∀ (cfg : BlockCfg) (sh : Shape),
          cfg.downsampleShape sh =
            (convShape cfg.inC (cfg.outC * BasicBlock.expansion) 1 cfg.stride 0 sh).bind
              (bnShape (cfg.outC * BasicBlock.expansion))) ∧
      (∀ (cfg : BlockCfg) (sh out : Shape),
          blockShape cfg sh = some out → cfg.hasDownsample = true →
            cfg.downsampleShape sh = some out) := by
  intro inCh outC n stride hn
  refine ⟨rfl, rfl, ?_, ?_, ?_, fun cfg sh => rfl, ?_⟩
  · simp only [ResNet.makeLayer, List.length_cons, List.length_replicate]
    omega
  · simp [bne_iff_ne]
  · intro cfg hm
    have h := List.eq_of_mem_replicate hm
    rw [h]
    exact ⟨rfl, rfl⟩
  · intro cfg sh out hbs hds
    simp only [blockShape] at hbs
    rcases Option.bind_eq_some.mp hbs with ⟨o, _, h2⟩
    rw [hds, if_pos rfl] at h2
    rcases Option.bind_eq_some.mp h2 with ⟨idv, hidv, h3⟩
    by_cases hio : idv = o
    · rw [if_pos hio] at h3
      injection h3 with h4
      rw [hidv, hio, h4]
    · rw [if_neg hio] at h3
      exact absurd h3 (Option.noConfusion)

/-- Concrete instance of `makeLayer_stage`. -/
theorem makeLayer_stage_witness :
    (ResNet.makeLayer 64 128 2 2).1 =
      ⟨64, 128, 2, (2 != 1 || 64 != 128 * BasicBlock.expansion)⟩ ::
        List.replicate (2 - 1) ⟨128 * BasicBlock.expansion, 128, 1, false⟩ ∧
    (ResNet.makeLayer 64 128 2 2).2 = 128 * BasicBlock.expansion :=
  ⟨(makeLayer_stage 64 128 2 2 (by decide)).1,
   (makeLayer_stage 64 128 2 2 (by decide)).2.1⟩

/-- C6: the assembled network with stage configuration [2,2,2,2] and class
count 10 maps a batch of `n` inputs of shape (3,224,224) or (3,32,32) to
output shape (n,10), through the stem, the four stages, global average
pooling, flattening, and the final linear layer; no activation follows the
final linear layer, so its outputs are raw scores — in particular they can
be negative. -/
theorem resnet18_output_shape :
    (∀ n : ℕ, ResNet.batchedOutShape resnet18 n (3, 224, 224) = some (n, 10)) ∧
    (∀ n : ℕ, ResNet.batchedOutShape resnet18 n (3, 32, 32) = some (n, 10)) ∧
    (∃ (p : ResNetParams) (x : Img) (k : ℕ), ResNet.forwardV resnet18 p 32 32 x k < 0) := by
  refine ⟨?_, ?_, ?_⟩
  · intro n
    have h : ResNet.forwardShape resnet18 (3, 224, 224) = some 10 := by decide
    rw [ResNet.batchedOutShape, h]
    rfl
  · intro n
    have h : ResNet.forwardShape resnet18 (3, 32, 32) = some 10 := by decide
    rw [ResNet.batchedOutShape, h]
    rfl
  · refine ⟨negResNetP, zeroImg, 0, ?_⟩
    simp only [ResNet.forwardV, linearV, negResNetP, negFc, zero_mul,
               Finset.sum_const_zero, zero_add]
    norm_num

/-- C10: the second (redefining) `SimpleCNN` applies ReLU to the output of
its final linear layer `fc2`, so every component of its output is ≥ 0; the
first `SimpleCNN` and the assembled residual network leave their final
linear outputs unactivated, and can output negative scores. -/
theorem simpleCNN_redefined_activation :
    (∀ (p : SimpleCNNParams) (x : Img) (k : ℕ), 0 ≤ SimpleCNN2.forward p x k) ∧
    (∃ (p : SimpleCNNParams) (x : Img) (k : ℕ), SimpleCNN.forward p x k < 0) ∧
    (∃ (p : ResNetParams) (x : Img) (k : ℕ),
        ResNet.forwardV resnet18 p 224 224 x k < 0) := by
  refine ⟨?_, ?_, ?_⟩
  · intro p x k
    simp only [SimpleCNN2.forward, reluV]
    exact le_max_left 0 _
  · refine ⟨negSimpleP, zeroImg, 0, ?_⟩
    simp only [SimpleCNN.forward, linearV, negSimpleP, negFc, zero_mul,
               Finset.sum_const_zero, zero_add]
    norm_num
  · refine ⟨negResNetP, zeroImg, 0, ?_⟩
    simp only [ResNet.forwardV, linearV, negResNetP, negFc, zero_mul,
               Finset.sum_const_zero, zero_add]
    norm_num

end DLCourse
